import Mathlib

set_option maxRecDepth 8000

/-!
Shallow embedding of the TCP command bridge of `src/mcp2tcp/server.py`
(project mcp2tcp).  Python strings are modelled as `List Char`, byte
strings as `List Nat` (each element a byte value `< 256`), dictionaries
as association lists, and the socket/peer as an explicit script of
receive events.  Exceptions raised inside `send_command`'s `try` block
are modelled with `Except`; the two `except` clauses at its end are the
catch step of `TCPConnection.sendCommand`.  Diagnostic message texts are
reproduced up to their interpolated tails (host/port, exception text),
which no property below depends on.
-/

namespace Mcp2tcp

/-- The character `{` (written via its code point to keep string
literals brace-free). -/
def lbrace : Char := Char.ofNat 123

/-- The character `}`. -/
def rbrace : Char := Char.ofNat 125

/-- Whitespace as stripped by Python's `str.strip` / `str.rstrip`,
restricted to the ASCII whitespace characters (space, tab, LF, CR,
vertical tab, form feed), the only ones arising in this protocol. -/
def isPySpace (c : Char) : Bool :=
  c.toNat == 32 || c.toNat == 9 || c.toNat == 10 || c.toNat == 13 ||
    c.toNat == 11 || c.toNat == 12

/-- Python `s.rstrip()`: drop trailing whitespace. -/
def py_rstrip (s : List Char) : List Char :=
  (s.reverse.dropWhile isPySpace).reverse

/-- Python `s.lstrip()`: drop leading whitespace. -/
def py_lstrip (s : List Char) : List Char :=
  s.dropWhile isPySpace

/-- Python `s.strip()`. -/
def py_strip (s : List Char) : List Char :=
  py_lstrip (py_rstrip s)

/-- Python `s.replace(" ", "")`: remove every space character. -/
def removeSpaces (s : List Char) : List Char :=
  s.filter (fun c => !(c == ' '))

/-- `leadsWith n h` : the list `n` is an initial segment of `h`. -/
def leadsWith : List Char → List Char → Bool
  | [], _ => true
  | _ :: _, [] => false
  | a :: as, b :: bs => a == b && leadsWith as bs

/-- Python's substring test `needle in hay` for `str` values. -/
def pyIn (needle : List Char) : List Char → Bool
  | [] => needle.isEmpty
  | c :: rest => leadsWith needle (c :: rest) || pyIn needle rest

/-- Arguments dictionary: Python `dict[str, str]` as an association
list. -/
abbrev ArgsDict := List (List Char × List Char)

/-- Dictionary lookup used by placeholder substitution. -/
def lookupArg (args : ArgsDict) (k : List Char) : Option (List Char) :=
  (args.find? (fun p => p.1 == k)).map (fun p => p.2)

/-- Scanner state for `pyFormat`: copying literal text, just saw an
opening brace, inside a placeholder name (accumulated reversed), or
just saw a closing brace. -/
inductive FmtState where
  | lit : FmtState
  | sawOpen : FmtState
  | inName : List Char → FmtState
  | sawClose : FmtState

/-- Worker for `pyFormat`, one character per step.  Mirrors Python
`str.format` restricted to the named-placeholder fragment used by the
configuration templates: `{{`/`}}` escapes and `{name}` substitution.
A missing key, an unmatched brace or an empty/unknown name is a
formatting failure (`none`), which in Python raises an exception caught
by `send_command`'s handler. -/
def formatGo (args : ArgsDict) : List Char → FmtState → Option (List Char)
  | [], .lit => some []
  | [], .sawOpen => none
  | [], .inName _ => none
  | [], .sawClose => none
  | c :: rest, .lit =>
    if c == lbrace then formatGo args rest .sawOpen
    else if c == rbrace then formatGo args rest .sawClose
    else (formatGo args rest .lit).map (fun t => c :: t)
  | c :: rest, .sawOpen =>
    if c == lbrace then (formatGo args rest .lit).map (fun t => lbrace :: t)
    else if c == rbrace then
      match lookupArg args [] with
      | none => none
      | some v => (formatGo args rest .lit).map (fun t => v ++ t)
    else formatGo args rest (.inName [c])
  | c :: rest, .inName acc =>
    if c == rbrace then
      match lookupArg args acc.reverse with
      | none => none
      | some v => (formatGo args rest .lit).map (fun t => v ++ t)
    else if c == lbrace then none
    else formatGo args rest (.inName (c :: acc))
  | c :: rest, .sawClose =>
    if c == rbrace then (formatGo args rest .lit).map (fun t => rbrace :: t)
    else none

/-- Python `template.format(**args)` (`none` models the raised
`KeyError`/`ValueError`). -/
def pyFormat (args : ArgsDict) (template : List Char) : Option (List Char) :=
  formatGo args template .lit

/-- UTF-8 encoding of one character (Python `str.encode()`). -/
def utf8EncodeChar (c : Char) : List Nat :=
  if c.toNat < 128 then [c.toNat]
  else if c.toNat < 2048 then [192 + c.toNat / 64, 128 + c.toNat % 64]
  else if c.toNat < 65536 then
    [224 + c.toNat / 4096, 128 + (c.toNat / 64) % 64, 128 + c.toNat % 64]
  else
    [240 + c.toNat / 262144, 128 + (c.toNat / 4096) % 64,
      128 + (c.toNat / 64) % 64, 128 + c.toNat % 64]

/-- UTF-8 encoding of a string (Python `str.encode()`). -/
def utf8Encode (s : List Char) : List Nat :=
  (s.map utf8EncodeChar).flatten

/-- A UTF-8 continuation byte. -/
def isCont (b : Nat) : Bool := 128 ≤ b && b ≤ 191

/-- Strict UTF-8 decoding, Python `bytes.decode()`: rejects stray
continuation bytes, truncated sequences, overlong encodings, surrogates
and code points above `0x10FFFF` (`none` models the raised
`UnicodeDecodeError`). -/
def utf8Decode : List Nat → Option (List Char)
  | [] => some []
  | b :: l =>
    if b < 128 then
      (utf8Decode l).map (fun t => Char.ofNat b :: t)
    else if 194 ≤ b && b ≤ 223 then
      match l with
      | c1 :: l1 =>
        if isCont c1 then
          (utf8Decode l1).map (fun t => Char.ofNat ((b - 192) * 64 + (c1 - 128)) :: t)
        else none
      | [] => none
    else if 224 ≤ b && b ≤ 239 then
      match l with
      | c1 :: c2 :: l2 =>
        let lo1 : Nat := if b == 224 then 160 else 128
        let hi1 : Nat := if b == 237 then 159 else 191
        if (lo1 ≤ c1 && c1 ≤ hi1) && isCont c2 then
          (utf8Decode l2).map
            (fun t => Char.ofNat ((b - 224) * 4096 + (c1 - 128) * 64 + (c2 - 128)) :: t)
        else none
      | _ => none
    else if 240 ≤ b && b ≤ 244 then
      match l with
      | c1 :: c2 :: c3 :: l3 =>
        let lo1 : Nat := if b == 240 then 144 else 128
        let hi1 : Nat := if b == 244 then 143 else 191
        if (lo1 ≤ c1 && c1 ≤ hi1) && (isCont c2 && isCont c3) then
          (utf8Decode l3).map
            (fun t =>
              Char.ofNat
                ((b - 240) * 262144 + (c1 - 128) * 4096 + (c2 - 128) * 64 + (c3 - 128)) :: t)
        else none
      | _ => none
    else none

/-- Value of one hexadecimal digit (Python `bytes.fromhex` accepts both
cases). -/
def hexVal (c : Char) : Option Nat :=
  if 48 ≤ c.toNat && c.toNat ≤ 57 then some (c.toNat - 48)
  else if 97 ≤ c.toNat && c.toNat ≤ 102 then some (c.toNat - 87)
  else if 65 ≤ c.toNat && c.toNat ≤ 70 then some (c.toNat - 55)
  else none

/-- Python `bytes.fromhex` (CPython 3.7 and later, and this project
requires 3.10+): ASCII whitespace is skipped between digit pairs; each
byte is two immediately adjacent hexadecimal digits; any other
character, a pair split by whitespace, or a trailing lone digit raises
`ValueError` (modelled as `none`).  In the source it is applied after
`.replace(" ", "")` has removed the spaces, but other whitespace (tab,
newline, ...) may remain and is skipped, not rejected. -/
def bytes_fromhex : List Char → Option (List Nat)
  | [] => some []
  | c :: rest =>
    if isPySpace c then bytes_fromhex rest
    else
      match hexVal c, rest with
      | some h, c2 :: rest2 =>
        match hexVal c2, bytes_fromhex rest2 with
        | some l, some bs => some ((16 * h + l) :: bs)
        | _, _ => none
      | _, _ => none

/-- The `Command` dataclass (server.py lines 55-61). -/
structure Command where
  command : List Char
  need_parse : Bool
  data_type : String
  prompts : List (List Char)

/-- The `Config` dataclass (server.py lines 63-74) with its field
defaults.  Timeouts are modelled as exact rationals. -/
structure Config where
  remote_ip : Option (List Char) := none
  port : Nat := 12345
  connect_timeout : Rat := 3
  receive_timeout : Rat := 3
  timeout : Rat := 1
  read_timeout : Rat := 1
  response_start_string : List Char := "OK".data
  communication_type : List Char := "client".data
  commands : List (String × Command) := []

/-- `name in config.commands` / `config.commands[name]` on the commands
dictionary. -/
def lookupCommand (cfg : Config) (name : String) : Option Command :=
  (cfg.commands.find? (fun p => p.1 == name)).map (fun p => p.2)

/-- The state of a `TCPConnection` object: `socket` is `true` when
`self.socket` is not `None`.  The remaining fields are copied from the
configuration by `__init__` (lines 140-146); note the factor 5 applied
to `receive_timeout` there. -/
structure TCPConnection where
  socket : Bool
  remote_ip : Option (List Char)
  port : Nat
  connect_timeout : Rat
  receive_timeout : Rat
  response_start_string : List Char

/-- `TCPConnection.__init__` (lines 140-146). -/
def TCPConnection.init (cfg : Config) : TCPConnection :=
  { socket := false
    remote_ip := cfg.remote_ip
    port := cfg.port
    connect_timeout := cfg.connect_timeout
    receive_timeout := cfg.receive_timeout * 5
    response_start_string := cfg.response_start_string }

/-- `TCPConnection.close` (lines 240-245). -/
def TCPConnection.close (conn : TCPConnection) : TCPConnection :=
  { conn with socket := false }

/-- Observable socket operations, recorded as a trace. -/
inductive SocketOp where
  | connect : SocketOp
  | send : List Nat → SocketOp
  | setRecvTimeout : Rat → SocketOp
  | recv : SocketOp
deriving DecidableEq

/-- Behaviour of the peer at one `recv` call: deliver bytes (an empty
delivery is the end-of-stream signal of a closed connection) or let the
read deadline elapse, raising `socket.timeout`. -/
inductive RecvEvent where
  | data : List Nat → RecvEvent
  | timeout : RecvEvent
deriving DecidableEq

/-- Outcome of `socket.sendall`: success, a raised `socket.timeout`, or
another raised `OSError`. -/
inductive SendIO where
  | ok : SendIO
  | timedOut : SendIO
  | ioError : SendIO
deriving DecidableEq

/-- A deterministic script for the remote endpoint: whether the connect
attempt succeeds, how `sendall` behaves, and the sequence of `recv`
outcomes.  When the script is exhausted the peer stays silent, so the
blocking `recv` (whose deadline `settimeout` set) raises
`socket.timeout`. -/
structure Peer where
  acceptConnect : Bool
  sendResult : SendIO
  events : List RecvEvent

/-- Python `response.endswith(b"\r\n")`. -/
def endsWithCRLF (d : List Nat) : Bool :=
  match d.reverse with
  | 10 :: 13 :: _ => true
  | _ => false

/-- The exception classes distinguished by `send_command`'s two
`except` clauses: `socket.timeout`, and any other `Exception`
(`KeyError`, `ValueError`, `UnicodeDecodeError`, `OSError`, ...). -/
inductive PyExc where
  | sockTimeout : PyExc
  | other : PyExc
deriving DecidableEq

/-- The distinct result branches of `TCPConnection.send_command`; each
is rendered to one `TextContent` by `renderResult`. -/
inductive TcpResult where
  | connectFailed : TcpResult
  | recvTimeout : TcpResult
  | noResponse : TcpResult
  | ok : List Char → TcpResult
  | invalid : List Char → TcpResult
  | sendTimeout : TcpResult
  | tcpError : TcpResult
deriving DecidableEq

/-- How the receive loop (lines 188-205) was left. -/
inductive RecvExit where
  | frameDone : RecvExit
  | closed : RecvExit
  | timedOut : RecvExit
deriving DecidableEq

/-- Result of the receive loop: accumulated responses, the way the loop
ended, and the trace of `recv` calls. -/
structure RecvOut where
  responses : List (List Nat)
  exit : RecvExit
  ops : List SocketOp

/-- The receive loop (lines 188-205): read up to 4096 bytes; an empty
read means the peer closed (plain `break`); a non-empty chunk is
accumulated, breaking the loop when `data_type == "ascii"` and the
chunk ends with CRLF, or unconditionally when `data_type == "hex"`;
`socket.timeout` is caught inside the loop and returns the
receive-timeout diagnostic. -/
def recvLoop (dataType : String) : List RecvEvent → List (List Nat) → RecvOut
  | [], acc => ⟨acc, .timedOut, [.recv]⟩
  | .timeout :: _, acc => ⟨acc, .timedOut, [.recv]⟩
  | .data d :: rest, acc =>
    if d.isEmpty then ⟨acc, .closed, [.recv]⟩
    else
      let acc2 := acc ++ [d]
      if dataType == "ascii" && endsWithCRLF d then ⟨acc2, .frameDone, [.recv]⟩
      else if dataType == "hex" then ⟨acc2, .frameDone, [.recv]⟩
      else
        let r := recvLoop dataType rest acc2
        ⟨r.responses, r.exit, .recv :: r.ops⟩

/-- The encoding step (lines 172-185): for `"ascii"`, substitute
placeholders, `rstrip`, append one CRLF and UTF-8 encode; for `"hex"`,
space-strip and hex-decode with no terminator; any other `data_type`
sends nothing (`.ok none`).  A formatting or hex failure raises. -/
def encodeStep (cmd : Command) (args : ArgsDict) : Except PyExc (Option (List Nat)) :=
  if cmd.data_type == "ascii" then
    match pyFormat args cmd.command with
    | none => .error .other
    | some s => .ok (some (utf8Encode (py_rstrip s ++ ['\r', '\n'])))
  else if cmd.data_type == "hex" then
    match bytes_fromhex (removeSpaces cmd.command) with
    | none => .error .other
    | some bs => .ok (some bs)
  else .ok none

/-- Validation of the first captured chunk (lines 213-225): decode it
(raising `UnicodeDecodeError` on invalid UTF-8), strip surrounding
whitespace, and branch on containment of `response_start_string`. -/
def validateResp (marker : List Char) (r : List Nat) : Except PyExc TcpResult :=
  match utf8Decode r with
  | none => .error .other
  | some s =>
    let t := py_strip s
    if pyIn marker t then .ok (.ok t) else .ok (.invalid t)

/-- Receive/validate phase of `send_command`: `settimeout` (line 186),
the receive loop, the empty-response check (lines 207-211) and
validation.  Second component: the socket operations performed. -/
def recvPhase (conn : TCPConnection) (cmd : Command) (peer : Peer) :
    Except PyExc TcpResult × List SocketOp :=
  let r := recvLoop cmd.data_type peer.events []
  (match r.exit with
   | .timedOut => .ok .recvTimeout
   | _ =>
     match r.responses with
     | [] => .ok .noResponse
     | first :: _ => validateResp conn.response_start_string first,
   SocketOp.setRecvTimeout conn.receive_timeout :: r.ops)

/-- The body of `send_command`'s `try` block (lines 165-225) as a
function of the connection state and the peer script.  Returns the
result branch, the new socket flag and the socket-operation trace;
`.error` models an exception escaping the `try` body.  `connect`
(lines 148-161) swallows its own errors and reports `False`, producing
the connect-failure text without raising. -/
def sendCommandTry (conn : TCPConnection) (cmd : Command) (args : ArgsDict) (peer : Peer) :
    Except (PyExc × Bool × List SocketOp) (TcpResult × Bool × List SocketOp) :=
  if !conn.socket && !peer.acceptConnect then
    .ok (.connectFailed, false, [.connect])
  else
    let tr0 : List SocketOp := if conn.socket then [] else [.connect]
    match encodeStep cmd args with
    | .error e => .error (e, true, tr0)
    | .ok none =>
      let rp := recvPhase conn cmd peer
      match rp.1 with
      | .error e => .error (e, true, tr0 ++ rp.2)
      | .ok res => .ok (res, true, tr0 ++ rp.2)
    | .ok (some bs) =>
      let tr1 := tr0 ++ [SocketOp.send bs]
      match peer.sendResult with
      | .timedOut => .error (.sockTimeout, true, tr1)
      | .ioError => .error (.other, true, tr1)
      | .ok =>
        let rp := recvPhase conn cmd peer
        match rp.1 with
        | .error e => .error (e, true, tr1 ++ rp.2)
        | .ok res => .ok (res, true, tr1 ++ rp.2)

/-- Result of one `send_command` call: the result branch, the new
socket flag and the trace of socket operations. -/
structure SendOut where
  result : TcpResult
  socket : Bool
  trace : List SocketOp

/-- `TCPConnection.send_command` (lines 163-238): the `try` body
followed by the two `except` clauses (`socket.timeout` becomes the
send-timeout text, any other `Exception` the generic TCP-error text).
Neither handler clears `self.socket`. -/
def sendCommand (conn : TCPConnection) (cmd : Command) (args : ArgsDict) (peer : Peer) :
    SendOut :=
  match sendCommandTry conn cmd args peer with
  | .ok (res, s, tr) => ⟨res, s, tr⟩
  | .error (.sockTimeout, s, tr) => ⟨.sendTimeout, s, tr⟩
  | .error (.other, s, tr) => ⟨.tcpError, s, tr⟩

/-- The `text` field of the returned `TextContent` for each result
branch, up to the interpolated tails (host/port, timeout value,
exception text) on which no property below depends. -/
def renderResult : TcpResult → List Char
  | .connectFailed => "Failed to connect to TCP server at ".data
  | .recvTimeout => "TCP receive timeout: ".data
  | .noResponse => "No response received from TCP server within ".data
  | .ok t => t
  | .invalid t => "Invalid response: ".data ++ t
  | .sendTimeout => "TCP send timeout: ".data
  | .tcpError => "TCP error: ".data

/-- The version constant (line 51). -/
def VERSION : List Char := "0.1.0".data

/-- The unknown-tool diagnostic of `handle_call_tool` (lines 287-294),
up to quoting and the multi-line advice tail. -/
def unknownToolMsg (name : String) : List Char :=
  "[mcp2tcp v".data ++ VERSION ++ "] Error: Unknown tool ".data ++ name.data

/-- `handle_call_tool` (lines 280-312): registry lookup (unknown names
answered without touching the connection), `None` arguments defaulted
to the empty dict, then `send_command`.  Returns the rendered
`TextContent` texts, the new socket flag and the socket trace. -/
def handleCallTool (cfg : Config) (conn : TCPConnection) (name : String)
    (args : Option ArgsDict) (peer : Peer) :
    List (List Char) × Bool × List SocketOp :=
  match lookupCommand cfg name with
  | none => ([unknownToolMsg name], conn.socket, [])
  | some cmd =>
    let out := sendCommand conn cmd (args.getD []) peer
    ([renderResult out.result], out.socket, out.trace)



/-! ### Derived notions used to state the properties -/

/-- A byte sequence ends with exactly one CR LF terminator: it splits
as `pre ++ [13, 10]` where `pre` itself ends in neither CR nor LF. -/
def EndsWithOneCRLF (bs : List Nat) : Prop :=
  ∃ pre, bs = pre ++ [13, 10] ∧ pre.getLast? ≠ some 13 ∧ pre.getLast? ≠ some 10

/-- The given character is a hexadecimal digit. -/
def isHexDigit (c : Char) : Bool :=
  (hexVal c).isSome

/-- A well-formed hex string in the narrow sense of the specification:
even length and hex digits only. -/
def WellFormedHex (s : List Char) : Prop :=
  s.length % 2 = 0 ∧ ∀ c ∈ s, isHexDigit c = true

instance (s : List Char) : Decidable (WellFormedHex s) := by
  unfold WellFormedHex
  infer_instance

/-- The grammar of strings accepted by `bytes.fromhex`: ASCII
whitespace may occur between byte pairs, and each byte is two adjacent
hexadecimal digits. -/
inductive HexWsOk : List Char → Prop where
  | nil : HexWsOk []
  | ws : ∀ {c : Char} {s : List Char}, isPySpace c = true → HexWsOk s → HexWsOk (c :: s)
  | pair : ∀ {c1 c2 : Char} {s : List Char}, isHexDigit c1 = true → isHexDigit c2 = true →
      HexWsOk s → HexWsOk (c1 :: c2 :: s)

/-- Lowercase hex digit character for a value below 16. -/
def hexDigitChar (n : Nat) : Char :=
  if n < 10 then Char.ofNat (48 + n) else Char.ofNat (97 + (n - 10))

/-- Reference denotation of a byte sequence as a lowercase hex string;
`bytes_fromhex` is its inverse on well-formed input. -/
def bytesToHex (bs : List Nat) : List Char :=
  (bs.map (fun b => [hexDigitChar (b / 16), hexDigitChar (b % 16)])).flatten

/-- Lowercasing of the hex letters `A`-`F` (identity elsewhere). -/
def hexLower (c : Char) : Char :=
  if 65 ≤ c.toNat && c.toNat ≤ 70 then Char.ofNat (c.toNat + 32) else c

/-! ### Concrete fixtures for counterexamples and witnesses

The `setFreq` example of the specification (template `PWM {frequency}`,
ASCII encoding, marker `OK`), an already-connected `TCPConnection`
state, and peer scripts for the scenarios exercised below. -/

/-- The example ASCII command `setFreq` with `need_parse = False`. -/
def exCmd : Command :=
  { command := "PWM {frequency}".data, need_parse := false, data_type := "ascii", prompts := [] }

/-- Arguments `frequency = "1000"` for `exCmd`. -/
def exArgs : ArgsDict := [("frequency".data, "1000".data)]

/-- A connected `TCPConnection` whose configured marker is `OK` (its
`receive_timeout` field holds `3.0 * 5` as set by `__init__`). -/
def exConn : TCPConnection :=
  { socket := true, remote_ip := some "127.0.0.1".data, port := 9999,
    connect_timeout := 3, receive_timeout := 15, response_start_string := "OK".data }

/-- A peer that answers `OK 1000\r\n`. -/
def exPeer1 : Peer :=
  { acceptConnect := true, sendResult := .ok, events := [.data (utf8Encode "OK 1000\r\n".data)] }

/-- A peer that answers `OK 2000\r\n`. -/
def exPeer2 : Peer :=
  { acceptConnect := true, sendResult := .ok, events := [.data (utf8Encode "OK 2000\r\n".data)] }

/-- A peer that lets the read deadline elapse. -/
def peerTO : Peer := { acceptConnect := true, sendResult := .ok, events := [.timeout] }

/-- A peer that closes the connection without sending anything. -/
def peerClose : Peer := { acceptConnect := true, sendResult := .ok, events := [.data []] }

/-- A hex command with template `FF`. -/
def hexCmd : Command :=
  { command := "FF".data, need_parse := true, data_type := "hex", prompts := [] }

/-- A peer that answers the lone byte `0xFF`, which is not decodable as
UTF-8. -/
def peerBad : Peer := { acceptConnect := true, sendResult := .ok, events := [.data [255]] }

/-- A command whose `data_type` is neither `ascii` nor `hex`. -/
def binCmd : Command :=
  { command := "xyz".data, need_parse := false, data_type := "binary", prompts := [] }

/-- A peer that sends one non-empty chunk and then closes. -/
def peerBin : Peer :=
  { acceptConnect := true, sendResult := .ok, events := [.data [1, 2, 3], .data []] }

/-- A hex command whose template contains a tab: `bytes.fromhex` skips
it between the pairs, so encoding succeeds. -/
def tabCmd : Command :=
  { command := "FF\t00".data, need_parse := false, data_type := "hex", prompts := [] }

/-- A hex command with a trailing lone digit, which `bytes.fromhex`
rejects. -/
def oddCmd : Command :=
  { command := "A1 F".data, need_parse := false, data_type := "hex", prompts := [] }

/-- A configuration with all defaults (`receive_timeout = 3.0`). -/
def cfgDefault : Config := {}

/-- Socket flag carried by either branch of `sendCommandTry`. -/
def trySocket : Except (PyExc × Bool × List SocketOp) (TcpResult × Bool × List SocketOp) → Bool
  | .ok (_, s, _) => s
  | .error (_, s, _) => s

/-- Trace carried by either branch of `sendCommandTry`. -/
def tryTrace : Except (PyExc × Bool × List SocketOp) (TcpResult × Bool × List SocketOp) →
    List SocketOp
  | .ok (_, _, tr) => tr
  | .error (_, _, tr) => tr

/-! ### Helper lemmas on strings and UTF-8 -/

theorem dropWhile_head (p : Char → Bool) (l : List Char) :
    l.dropWhile p = [] ∨ ∃ a t, l.dropWhile p = a :: t ∧ p a = false := by
  induction l with
  | nil => exact Or.inl rfl
  | cons a l ih =>
    rw [List.dropWhile_cons]
    by_cases h : p a = true
    · simpa [h] using ih
    · exact Or.inr ⟨a, l, by simp [h], by simpa using h⟩

theorem py_rstrip_no_trailing (s : List Char) :
    py_rstrip s = [] ∨ ∃ c, (py_rstrip s).getLast? = some c ∧ isPySpace c = false := by
  unfold py_rstrip
  rcases dropWhile_head isPySpace s.reverse with h | ⟨a, t, h, hp⟩
  · exact Or.inl (by simp [h])
  · exact Or.inr ⟨a, by simp [h], hp⟩

theorem utf8Encode_append (a b : List Char) :
    utf8Encode (a ++ b) = utf8Encode a ++ utf8Encode b := by
  simp [utf8Encode]

theorem utf8Encode_singleton (c : Char) : utf8Encode [c] = utf8EncodeChar c := by
  simp [utf8Encode]

theorem utf8EncodeChar_ne_nil (c : Char) : utf8EncodeChar c ≠ [] := by
  unfold utf8EncodeChar
  repeat' split
  all_goals exact List.cons_ne_nil _ _

theorem utf8EncodeChar_getLast_not_cr_lf (c : Char) (h : isPySpace c = false) :
    (utf8EncodeChar c).getLast? ≠ some 13 ∧ (utf8EncodeChar c).getLast? ≠ some 10 := by
  simp only [isPySpace, Bool.or_eq_false_iff, beq_eq_false_iff_ne] at h
  unfold utf8EncodeChar
  repeat' split
  all_goals constructor
  all_goals simp only [List.getLast?_cons_cons, List.getLast?_singleton, ne_eq,
    Option.some.injEq]
  all_goals omega

theorem utf8Encode_getLast_not_cr_lf (s : List Char)
    (h : s = [] ∨ ∃ c, s.getLast? = some c ∧ isPySpace c = false) :
    (utf8Encode s).getLast? ≠ some 13 ∧ (utf8Encode s).getLast? ≠ some 10 := by
  rcases h with rfl | ⟨c, hc, hsp⟩
  · simp [utf8Encode]
  · obtain ⟨t, rfl⟩ := List.getLast?_eq_some_iff.mp hc
    rw [utf8Encode_append,
      List.getLast?_append_of_ne_nil _
        (by rw [utf8Encode_singleton]; exact utf8EncodeChar_ne_nil c),
      utf8Encode_singleton]
    exact utf8EncodeChar_getLast_not_cr_lf c hsp

theorem ascii_payload_one_crlf (s : List Char) :
    EndsWithOneCRLF (utf8Encode (py_rstrip s ++ ['\r', '\n'])) := by
  refine ⟨utf8Encode (py_rstrip s), ?_,
    (utf8Encode_getLast_not_cr_lf _ (py_rstrip_no_trailing s)).1,
    (utf8Encode_getLast_not_cr_lf _ (py_rstrip_no_trailing s)).2⟩
  rw [utf8Encode_append]
  rfl

/-! ### Substring containment -/

theorem leadsWith_iff (n h : List Char) : leadsWith n h = true ↔ n <+: h := by
  induction n generalizing h with
  | nil => simp [leadsWith]
  | cons a as ih =>
    cases h with
    | nil => simp [leadsWith]
    | cons b bs => simp [leadsWith, ih, List.cons_prefix_cons]

theorem pyIn_iff (n h : List Char) : pyIn n h = true ↔ n <:+: h := by
  induction h with
  | nil => simp [pyIn, List.isEmpty_iff]
  | cons c r ih => simp [pyIn, leadsWith_iff, ih, List.infix_cons_iff]

/-! ### Hexadecimal helpers -/

theorem hexVal_le (c : Char) (k : Nat) (h : hexVal c = some k) : k ≤ 15 := by
  unfold hexVal at h
  repeat' split at h
  all_goals simp_all
  all_goals omega

theorem hexDigitChar_hexVal : ∀ m, m < 16 → hexVal (hexDigitChar m) = some m := by decide

theorem hexVal_lower (c : Char) (k : Nat) (h : hexVal c = some k) :
    hexDigitChar k = hexLower c := by
  unfold hexVal at h
  unfold hexDigitChar hexLower
  repeat' split at h
  all_goals simp_all
  all_goals have hofn : Char.ofNat c.toNat = c := Char.ofNat_toNat c
  all_goals repeat' split
  all_goals first
    | (exfalso; omega)
    | (exact congrArg Char.ofNat (by omega))
    | (rw [(by omega : 48 + k = c.toNat)]; exact hofn)
    | (rw [(by omega : 97 + (k - 10) = c.toNat)]; exact hofn)

theorem hexDigit_not_space (c : Char) (h : isHexDigit c = true) : isPySpace c = false := by
  unfold isHexDigit hexVal at h
  simp only [isPySpace, Bool.or_eq_false_iff, beq_eq_false_iff_ne]
  repeat' split at h
  all_goals simp_all
  all_goals omega

theorem hexDigitChar_not_space : ∀ m, m < 16 → isPySpace (hexDigitChar m) = false := by decide

theorem fromhex_isSome_iff (s : List Char) :
    (bytes_fromhex s).isSome = true ↔ HexWsOk s := by
  constructor
  · have key : ∀ n (s : List Char), s.length = n → (bytes_fromhex s).isSome = true →
        HexWsOk s := by
      intro n
      induction n using Nat.strong_induction_on with
      | _ n ih =>
        intro s hn hs
        rcases s with _ | ⟨c, rest⟩
        · exact HexWsOk.nil
        · unfold bytes_fromhex at hs
          by_cases hws : isPySpace c = true
          · rw [if_pos hws] at hs
            exact HexWsOk.ws hws (ih rest.length (by simp at hn; omega) rest rfl hs)
          · rw [if_neg hws] at hs
            rcases h1 : hexVal c with _ | k1
            · simp [h1] at hs
            · rcases rest with _ | ⟨c2, rest2⟩
              · simp [h1] at hs
              · rcases h2 : hexVal c2 with _ | k2
                · simp [h1, h2] at hs
                · rcases hb : bytes_fromhex rest2 with _ | bs
                  · simp [h1, h2, hb] at hs
                  · refine HexWsOk.pair (by simp [isHexDigit, h1]) (by simp [isHexDigit, h2])
                      (ih rest2.length (by simp at hn; omega) rest2 rfl (by simp [hb]))
    exact key s.length s rfl
  · intro h
    induction h with
    | nil => simp [bytes_fromhex]
    | ws hws _ ih =>
      unfold bytes_fromhex
      rw [if_pos hws]
      exact ih
    | pair h1 h2 _ ih =>
      have hws1 := hexDigit_not_space _ h1
      simp only [isHexDigit] at h1 h2
      obtain ⟨k1, hk1⟩ := Option.isSome_iff_exists.mp h1
      obtain ⟨k2, hk2⟩ := Option.isSome_iff_exists.mp h2
      obtain ⟨bs, hbs⟩ := Option.isSome_iff_exists.mp ih
      unfold bytes_fromhex
      rw [if_neg (by simp [hws1])]
      simp [hk1, hk2, hbs]

theorem fromhex_toHex (s : List Char) :
    ∀ bs, bytes_fromhex s = some bs →
      bytesToHex bs = (s.filter (fun c => !(isPySpace c))).map hexLower ∧
      ∀ b ∈ bs, b < 256 := by
  have key : ∀ n (s : List Char), s.length = n → ∀ bs, bytes_fromhex s = some bs →
      bytesToHex bs = (s.filter (fun c => !(isPySpace c))).map hexLower ∧
      ∀ b ∈ bs, b < 256 := by
    intro n
    induction n using Nat.strong_induction_on with
    | _ n ih =>
      intro s hn bs h
      rcases s with _ | ⟨c, rest⟩
      · simp [bytes_fromhex] at h
        subst h
        simp [bytesToHex]
      · unfold bytes_fromhex at h
        by_cases hws : isPySpace c = true
        · rw [if_pos hws] at h
          have hr := ih rest.length (by simp at hn; omega) rest rfl bs h
          simpa [List.filter_cons, hws] using hr
        · rw [if_neg hws] at h
          rcases h1 : hexVal c with _ | k1
          · simp [h1] at h
          · rcases rest with _ | ⟨c2, rest2⟩
            · simp [h1] at h
            · rcases h2 : hexVal c2 with _ | k2
              · simp [h1, h2] at h
              · rcases hb : bytes_fromhex rest2 with _ | bs0
                · simp [h1, h2, hb] at h
                · simp only [h1, h2, hb, Option.some.injEq] at h
                  subst h
                  have hk1 := hexVal_le c k1 h1
                  have hk2 := hexVal_le c2 k2 h2
                  obtain ⟨hmap, hlt⟩ := ih rest2.length (by simp at hn; omega) rest2 rfl bs0 hb
                  have e1 : (16 * k1 + k2) / 16 = k1 := by omega
                  have e2 : (16 * k1 + k2) % 16 = k2 := by omega
                  have hcs : isPySpace c = false := by
                    cases hx : isPySpace c
                    · rfl
                    · exact absurd hx hws
                  have hcs2 : isPySpace c2 = false :=
                    hexDigit_not_space c2 (by simp [isHexDigit, h2])
                  refine ⟨?_, ?_⟩
                  · simp [bytesToHex, e1, e2, hexVal_lower c k1 h1, hexVal_lower c2 k2 h2,
                      List.filter_cons, hcs, hcs2]
                    simpa [bytesToHex] using hmap
                  · intro b hbmem
                    rcases List.mem_cons.mp hbmem with rfl | hmem
                    · omega
                    · exact hlt b hmem
  exact key s.length s rfl

theorem toHex_fromhex (bs : List Nat) (h : ∀ b ∈ bs, b < 256) :
    bytes_fromhex (bytesToHex bs) = some bs := by
  induction bs with
  | nil => simp [bytesToHex, bytes_fromhex]
  | cons b rest ih =>
    have hb : b < 256 := h b (by simp)
    have hdiv : b / 16 < 16 := by omega
    have hmod : b % 16 < 16 := by omega
    have hrest := ih (fun x hx => h x (by simp [hx]))
    have hbth : (rest.map fun x => [hexDigitChar (x / 16), hexDigitChar (x % 16)]).flatten =
        bytesToHex rest := by simp [bytesToHex]
    simp only [bytesToHex, List.map_cons, List.flatten_cons, List.cons_append,
      List.nil_append]
    unfold bytes_fromhex
    rw [if_neg (by simp [hexDigitChar_not_space _ hdiv])]
    simp only [hexDigitChar_hexVal _ hdiv, hexDigitChar_hexVal _ hmod, hbth, hrest]
    have hbeq : 16 * (b / 16) + b % 16 = b := by omega
    rw [hbeq]

theorem fromhex_digits_iff (s : List Char) (hall : ∀ c ∈ s, isHexDigit c = true) :
    (bytes_fromhex s).isSome = true ↔ s.length % 2 = 0 := by
  have key : ∀ n (s : List Char), s.length = n → (∀ c ∈ s, isHexDigit c = true) →
      ((bytes_fromhex s).isSome = true ↔ s.length % 2 = 0) := by
    intro n
    induction n using Nat.strong_induction_on with
    | _ n ih =>
      intro s hn hall
      rcases s with _ | ⟨c1, _ | ⟨c2, rest⟩⟩
      · simp [bytes_fromhex]
      · have h1 : isHexDigit c1 = true := hall c1 (by simp)
        have hws : isPySpace c1 = false := hexDigit_not_space c1 h1
        simp only [isHexDigit] at h1
        obtain ⟨k1, hk1⟩ := Option.isSome_iff_exists.mp h1
        unfold bytes_fromhex
        rw [if_neg (by simp [hws])]
        simp [hk1]
      · have h1 : isHexDigit c1 = true := hall c1 (by simp)
        have h2 : isHexDigit c2 = true := hall c2 (by simp)
        have hws : isPySpace c1 = false := hexDigit_not_space c1 h1
        simp only [isHexDigit] at h1 h2
        obtain ⟨k1, hk1⟩ := Option.isSome_iff_exists.mp h1
        obtain ⟨k2, hk2⟩ := Option.isSome_iff_exists.mp h2
        have hihr := ih rest.length (by simp at hn; omega) rest rfl
          (fun c hc => hall c (by simp [hc]))
        unfold bytes_fromhex
        rw [if_neg (by simp [hws])]
        rcases hb : bytes_fromhex rest with _ | bs0
        · have hodd : ¬ rest.length % 2 = 0 := by
            intro he
            have hsome := hihr.mpr he
            simp [hb] at hsome
          simp [hk1, hk2, hb]
          omega
        · have heven : rest.length % 2 = 0 := hihr.mp (by simp [hb])
          simp [hk1, hk2, hb]
          omega
  exact key s.length s rfl hall

/-! ### Connection-level lemmas -/

theorem sendCommand_socket_proj (conn : TCPConnection) (cmd : Command) (args : ArgsDict)
    (peer : Peer) :
    (sendCommand conn cmd args peer).socket = trySocket (sendCommandTry conn cmd args peer) := by
  unfold sendCommand
  rcases h : sendCommandTry conn cmd args peer with ⟨e, s, tr⟩ | ⟨res, s, tr⟩
  · cases e <;> rfl
  · rfl

theorem sendCommand_trace_proj (conn : TCPConnection) (cmd : Command) (args : ArgsDict)
    (peer : Peer) :
    (sendCommand conn cmd args peer).trace = tryTrace (sendCommandTry conn cmd args peer) := by
  unfold sendCommand
  rcases h : sendCommandTry conn cmd args peer with ⟨e, s, tr⟩ | ⟨res, s, tr⟩
  · cases e <;> rfl
  · rfl

theorem recvLoop_ops_recv (dt : String) (ev : List RecvEvent) (acc : List (List Nat)) :
    ∀ op ∈ (recvLoop dt ev acc).ops, op = SocketOp.recv := by
  induction ev generalizing acc with
  | nil => intro op hop; simpa [recvLoop] using hop
  | cons e rest ih =>
    intro op hop
    cases e with
    | timeout => simpa [recvLoop] using hop
    | data d =>
      by_cases hd : d.isEmpty
      · simpa [recvLoop, hd] using hop
      · simp only [recvLoop, hd, Bool.false_eq_true, if_false] at hop
        split at hop
        · simpa using hop
        · split at hop
          · simpa using hop
          · rcases List.mem_cons.mp hop with rfl | hmem
            · rfl
            · exact ih _ op hmem

theorem sendCommand_socket_true (conn : TCPConnection) (cmd : Command) (args : ArgsDict)
    (peer : Peer) (hs : conn.socket = true) :
    (sendCommand conn cmd args peer).socket = true := by
  rw [sendCommand_socket_proj]
  unfold sendCommandTry
  simp only [hs, Bool.not_true, Bool.false_and, Bool.false_eq_true, if_false]
  repeat' split
  all_goals simp [trySocket]

theorem recvPhase_snd (conn : TCPConnection) (cmd : Command) (peer : Peer) :
    (recvPhase conn cmd peer).2 =
      SocketOp.setRecvTimeout conn.receive_timeout ::
        (recvLoop cmd.data_type peer.events []).ops := rfl

theorem tryTrace_mem (conn : TCPConnection) (cmd : Command) (args : ArgsDict) (peer : Peer) :
    ∀ op ∈ tryTrace (sendCommandTry conn cmd args peer),
      (op = SocketOp.connect ∧ conn.socket = false) ∨ (∃ bs, op = SocketOp.send bs) ∨
        op = SocketOp.setRecvTimeout conn.receive_timeout ∨ op = SocketOp.recv := by
  intro op hop
  unfold sendCommandTry at hop
  split at hop
  · rename_i hcond
    simp only [Bool.and_eq_true, Bool.not_eq_true'] at hcond
    simp only [tryTrace, List.mem_singleton] at hop
    exact Or.inl ⟨hop, hcond.1⟩
  · repeat' split at hop
    all_goals try (rcases hP : (recvPhase conn cmd peer).1 with e | res <;> simp only [hP] at hop)
    all_goals simp only [tryTrace, recvPhase_snd, List.mem_append, List.mem_singleton,
      List.mem_cons, List.not_mem_nil, false_or, or_false, List.nil_append] at hop
    all_goals
      first
        | exact Or.inl ⟨hop, by simp_all⟩
        | exact Or.inr (Or.inl ⟨_, hop⟩)
        | exact Or.inr (Or.inr (Or.inl hop))
        | exact Or.inr (Or.inr (Or.inr (recvLoop_ops_recv _ _ _ op hop)))
        | (rcases hop with hop | hop <;>
            first
              | exact Or.inl ⟨hop, by simp_all⟩
              | exact Or.inr (Or.inl ⟨_, hop⟩)
              | exact Or.inr (Or.inr (Or.inl hop))
              | exact Or.inr (Or.inr (Or.inr (recvLoop_ops_recv _ _ _ op hop)))
              | (rcases hop with hop | hop <;>
                  first
                    | exact Or.inl ⟨hop, by simp_all⟩
                    | exact Or.inr (Or.inl ⟨_, hop⟩)
                    | exact Or.inr (Or.inr (Or.inl hop))
                    | exact Or.inr (Or.inr (Or.inr (recvLoop_ops_recv _ _ _ op hop)))))

theorem sendCommand_trace_mem (conn : TCPConnection) (cmd : Command) (args : ArgsDict)
    (peer : Peer) :
    ∀ op ∈ (sendCommand conn cmd args peer).trace,
      (op = SocketOp.connect ∧ conn.socket = false) ∨ (∃ bs, op = SocketOp.send bs) ∨
        op = SocketOp.setRecvTimeout conn.receive_timeout ∨ op = SocketOp.recv := by
  rw [sendCommand_trace_proj]
  exact tryTrace_mem conn cmd args peer

theorem sendCommand_no_connect (conn : TCPConnection) (cmd : Command) (args : ArgsDict)
    (peer : Peer) (hs : conn.socket = true) :
    SocketOp.connect ∉ (sendCommand conn cmd args peer).trace := by
  intro hmem
  rcases sendCommand_trace_mem conn cmd args peer _ hmem with ⟨_, hfalse⟩ | ⟨bs, h⟩ | h | h <;>
    simp_all

theorem sendCommand_setTimeout_val (conn : TCPConnection) (cmd : Command) (args : ArgsDict)
    (peer : Peer) (t : Rat)
    (h : SocketOp.setRecvTimeout t ∈ (sendCommand conn cmd args peer).trace) :
    t = conn.receive_timeout := by
  rcases sendCommand_trace_mem conn cmd args peer _ h with ⟨h2, _⟩ | ⟨bs, h2⟩ | h2 | h2 <;>
    simp_all

theorem sendCommand_result_recv (conn : TCPConnection) (cmd : Command) (args : ArgsDict)
    (peer : Peer) (ob : Option (List Nat)) (hs : conn.socket = true)
    (henc : encodeStep cmd args = Except.ok ob) (hsr : peer.sendResult = SendIO.ok) :
    (sendCommand conn cmd args peer).result =
      (match (recvPhase conn cmd peer).1 with
       | Except.ok r => r
       | Except.error PyExc.sockTimeout => TcpResult.sendTimeout
       | Except.error PyExc.other => TcpResult.tcpError) := by
  unfold sendCommand sendCommandTry
  simp only [hs, Bool.not_true, Bool.false_and, Bool.false_eq_true, if_false, henc, hsr]
  rcases ob with _ | bs <;>
    rcases hP : (recvPhase conn cmd peer).1 with e | res <;>
      first
        | (cases e <;> rfl)
        | rfl

theorem recvPhase_close_empty (conn : TCPConnection) (cmd : Command) (peer : Peer)
    (rest : List RecvEvent) (hev : peer.events = RecvEvent.data [] :: rest) :
    (recvPhase conn cmd peer).1 = Except.ok TcpResult.noResponse := by
  simp [recvPhase, hev, recvLoop]

theorem recvPhase_timeout_ev (conn : TCPConnection) (cmd : Command) (peer : Peer)
    (rest : List RecvEvent) (hev : peer.events = RecvEvent.timeout :: rest) :
    (recvPhase conn cmd peer).1 = Except.ok TcpResult.recvTimeout := by
  simp [recvPhase, hev, recvLoop]

theorem encodeStep_other (cmd : Command) (args : ArgsDict)
    (h1 : cmd.data_type ≠ "ascii") (h2 : cmd.data_type ≠ "hex") :
    encodeStep cmd args = Except.ok none := by
  have h1' : (cmd.data_type == "ascii") = false := beq_eq_false_iff_ne.mpr h1
  have h2' : (cmd.data_type == "hex") = false := beq_eq_false_iff_ne.mpr h2
  unfold encodeStep
  simp [h1', h2']

theorem sendCommand_trace_recv_only (conn : TCPConnection) (cmd : Command) (args : ArgsDict)
    (peer : Peer) (hs : conn.socket = true) (henc : encodeStep cmd args = Except.ok none) :
    (sendCommand conn cmd args peer).trace = (recvPhase conn cmd peer).2 := by
  rw [sendCommand_trace_proj]
  unfold sendCommandTry
  simp only [hs, Bool.not_true, Bool.false_and, Bool.false_eq_true, if_false, henc]
  rcases hP : (recvPhase conn cmd peer).1 with e | res <;> simp only [hP] <;>
    first
      | (cases e <;> simp [tryTrace])
      | simp [tryTrace]

theorem recvLoop_exit_not_frame (dt : String) (h1 : dt ≠ "ascii") (h2 : dt ≠ "hex")
    (ev : List RecvEvent) (acc : List (List Nat)) :
    (recvLoop dt ev acc).exit = RecvExit.closed ∨ (recvLoop dt ev acc).exit = RecvExit.timedOut := by
  have h1' : (dt == "ascii") = false := beq_eq_false_iff_ne.mpr h1
  have h2' : (dt == "hex") = false := beq_eq_false_iff_ne.mpr h2
  induction ev generalizing acc with
  | nil => simp [recvLoop]
  | cons e rest ih =>
    cases e with
    | timeout => simp [recvLoop]
    | data d =>
      by_cases hd : d.isEmpty
      · simp [recvLoop, hd]
      · simp only [recvLoop, hd, Bool.false_eq_true, if_false, h1', h2', Bool.false_and]
        exact ih _

theorem sendCommand_setTimeout_mem (conn : TCPConnection) (cmd : Command) (args : ArgsDict)
    (peer : Peer) (ob : Option (List Nat)) (hs : conn.socket = true)
    (henc : encodeStep cmd args = Except.ok ob) (hsr : peer.sendResult = SendIO.ok) :
    SocketOp.setRecvTimeout conn.receive_timeout ∈ (sendCommand conn cmd args peer).trace := by
  rw [sendCommand_trace_proj]
  unfold sendCommandTry
  simp only [hs, Bool.not_true, Bool.false_and, Bool.false_eq_true, if_false, henc, hsr]
  rcases ob with _ | bs <;>
    rcases hP : (recvPhase conn cmd peer).1 with e | res <;>
      simp only [hP] <;>
      first
        | (cases e <;> simp [tryTrace, recvPhase_snd])
        | simp [tryTrace, recvPhase_snd]

/-! ### Claim theorems -/

/-- C4: for every ASCII-encoded command whose placeholders are all
supplied (formatting succeeds with result `s`), the encoder emits the
UTF-8 bytes of `rstrip(s)` followed by exactly one CR LF terminator,
regardless of trailing whitespace or terminators already in `s`; and
in particular template `PWM {frequency}` with `frequency = "1000"`
encodes to the bytes of `PWM 1000` CR LF. -/
theorem c4_ascii_terminator :
    (∀ (cmd : Command) (args : ArgsDict) (s : List Char),
        cmd.data_type = "ascii" → pyFormat args cmd.command = some s →
        encodeStep cmd args =
          Except.ok (some (utf8Encode (py_rstrip s ++ ['\r', '\n']))) ∧
        EndsWithOneCRLF (utf8Encode (py_rstrip s ++ ['\r', '\n']))) ∧
    encodeStep exCmd exArgs = Except.ok (some [80, 87, 77, 32, 49, 48, 48, 48, 13, 10]) := by
  constructor
  · intro cmd args s hdt hfmt
    refine ⟨?_, ascii_payload_one_crlf s⟩
    unfold encodeStep
    simp [hdt, hfmt]
  · rfl

/-- Witness for C4 at the concrete `setFreq` example. -/
theorem c4_witness :
    encodeStep exCmd exArgs =
      Except.ok (some (utf8Encode (py_rstrip "PWM 1000".data ++ ['\r', '\n']))) ∧
    EndsWithOneCRLF (utf8Encode (py_rstrip "PWM 1000".data ++ ['\r', '\n'])) :=
  c4_ascii_terminator.1 exCmd exArgs ("PWM 1000".data) rfl (by decide)

/-- C5 counterexample: `bytes.fromhex` skips ASCII whitespace between
digit pairs, so the template `FF` TAB `00` — whose space-stripped form
has odd length 5 and contains the non-hex character TAB — is encoded
successfully to the two bytes `0xFF 0x00` instead of failing with an
encoding error. -/
theorem c5_counterexample :
    (removeSpaces tabCmd.command).length % 2 = 1 ∧
    Char.ofNat 9 ∈ removeSpaces tabCmd.command ∧
    isHexDigit (Char.ofNat 9) = false ∧
    bytes_fromhex (removeSpaces tabCmd.command) = some [255, 0] ∧
    encodeStep tabCmd [] = Except.ok (some [255, 0]) :=
  ⟨by decide, by decide, by decide, by decide, rfl⟩

/-- C5 amended: `bytes.fromhex` accepts exactly the strings of hex
digit pairs with ASCII whitespace allowed between pairs (`HexWsOk`); a
successful decode denotes precisely the digit sequence of the
space-stripped template (whitespace skipped, lowercased) under the
reference printer, producing only byte values, and the printer
round-trips; digits-only input succeeds exactly when its length is
even (so the specification's well-formed templates decode); the
decoded bytes are passed through with no terminator appended; a
rejected template raises the error caught as the generic exception. -/
theorem c5_hex_roundtrip :
    (∀ tpl : List Char,
        (bytes_fromhex (removeSpaces tpl)).isSome = true ↔ HexWsOk (removeSpaces tpl)) ∧
    (∀ (tpl : List Char) (bs : List Nat), bytes_fromhex (removeSpaces tpl) = some bs →
        bytesToHex bs = ((removeSpaces tpl).filter (fun c => !(isPySpace c))).map hexLower ∧
        ∀ b ∈ bs, b < 256) ∧
    (∀ bs : List Nat, (∀ b ∈ bs, b < 256) → bytes_fromhex (bytesToHex bs) = some bs) ∧
    (∀ s : List Char, (∀ c ∈ s, isHexDigit c = true) →
        ((bytes_fromhex s).isSome = true ↔ s.length % 2 = 0)) ∧
    (∀ tpl : List Char, WellFormedHex tpl → (bytes_fromhex tpl).isSome = true) ∧
    (∀ (cmd : Command) (args : ArgsDict) (bs : List Nat), cmd.data_type = "hex" →
        bytes_fromhex (removeSpaces cmd.command) = some bs →
        encodeStep cmd args = Except.ok (some bs)) ∧
    (∀ (cmd : Command) (args : ArgsDict), cmd.data_type = "hex" →
        bytes_fromhex (removeSpaces cmd.command) = none →
        encodeStep cmd args = Except.error PyExc.other) := by
  refine ⟨fun tpl => fromhex_isSome_iff _, ?_, toHex_fromhex,
    fun s h => fromhex_digits_iff s h, ?_, ?_, ?_⟩
  · intro tpl bs h
    exact fromhex_toHex _ bs h
  · intro tpl hwf
    exact (fromhex_digits_iff tpl hwf.2).mpr hwf.1
  · intro cmd args bs hdt hbf
    unfold encodeStep
    simp [hdt, hbf]
  · intro cmd args hdt hbf
    unfold encodeStep
    simp [hdt, hbf]

/-- Witness for C5 at concrete hex strings. -/
theorem c5_witness :
    (bytesToHex [255, 0] =
        ((removeSpaces tabCmd.command).filter (fun c => !(isPySpace c))).map hexLower ∧
      ∀ b ∈ [255, 0], b < 256) ∧
    bytes_fromhex (bytesToHex [171]) = some [171] ∧
    ((bytes_fromhex ("A1FF".data)).isSome = true ↔ ("A1FF".data).length % 2 = 0) ∧
    (bytes_fromhex ("A1FF".data)).isSome = true ∧
    encodeStep hexCmd [] = Except.ok (some [255]) ∧
    encodeStep oddCmd [] = Except.error PyExc.other :=
  ⟨c5_hex_roundtrip.2.1 tabCmd.command [255, 0] (by decide),
   c5_hex_roundtrip.2.2.1 [171] (by decide),
   c5_hex_roundtrip.2.2.2.1 ("A1FF".data) (by decide),
   c5_hex_roundtrip.2.2.2.2.1 ("A1FF".data) (by decide),
   c5_hex_roundtrip.2.2.2.2.2.1 hexCmd [] [255] rfl (by decide),
   c5_hex_roundtrip.2.2.2.2.2.2 oddCmd [] rfl (by decide)⟩

/-- C1 counterexample: `exCmd` has `need_parse = false`, yet the two
runs return the (trimmed) response bodies `OK 1000` and `OK 2000`
verbatim — two different texts — so no fixed acknowledgment string is
returned in place of the response body. -/
theorem c1_counterexample :
    exCmd.need_parse = false ∧
    (sendCommand exConn exCmd exArgs exPeer1).result = TcpResult.ok ("OK 1000".data) ∧
    (sendCommand exConn exCmd exArgs exPeer2).result = TcpResult.ok ("OK 2000".data) ∧
    ("OK 1000".data : List Char) ≠ "OK 2000".data :=
  ⟨rfl, by decide, by decide, by decide⟩

/-- C1 amended: `send_command` never reads `need_parse` — its outcome
is identical for both flag values — and on success the validator
returns the trimmed decoded first chunk verbatim. -/
theorem c1_amended_need_parse_ignored :
    (∀ (conn : TCPConnection) (cmd : Command) (args : ArgsDict) (peer : Peer) (b : Bool),
        sendCommand conn { cmd with need_parse := b } args peer =
          sendCommand conn cmd args peer) ∧
    (∀ (marker : List Char) (r : List Nat) (s : List Char), utf8Decode r = some s →
        pyIn marker (py_strip s) = true →
        validateResp marker r = Except.ok (TcpResult.ok (py_strip s))) := by
  constructor
  · intro conn cmd args peer b
    rfl
  · intro marker r s hdec hin
    unfold validateResp
    rw [hdec]
    simp [hin]

/-- Witness for C1 at the concrete `setFreq` run. -/
theorem c1_witness :
    sendCommand exConn { exCmd with need_parse := true } exArgs exPeer1 =
      sendCommand exConn exCmd exArgs exPeer1 ∧
    validateResp ("OK".data) (utf8Encode "OK 1000\r\n".data) =
      Except.ok (TcpResult.ok (py_strip "OK 1000\r\n".data)) :=
  ⟨c1_amended_need_parse_ignored.1 exConn exCmd exArgs exPeer1 true,
   c1_amended_need_parse_ignored.2 ("OK".data) (utf8Encode "OK 1000\r\n".data)
     ("OK 1000\r\n".data) (by decide) (by decide)⟩

/-- C2 counterexample: after a receive timeout the socket is NOT
discarded (`socket` is still set), and the next invocation performs no
`connect` — it reuses the existing socket instead of attempting a
fresh connection. -/
theorem c2_counterexample :
    (sendCommand exConn exCmd exArgs peerTO).result = TcpResult.recvTimeout ∧
    (sendCommand exConn exCmd exArgs peerTO).socket = true ∧
    SocketOp.connect ∉
      (sendCommand { exConn with socket := (sendCommand exConn exCmd exArgs peerTO).socket }
        exCmd exArgs exPeer1).trace :=
  ⟨by decide, by decide, by decide⟩

/-- C2 amended: once connected, `send_command` never clears the socket
(on receive timeouts and send errors included), so the following
invocation performs no `connect` at all. -/
theorem c2_amended_socket_retained :
    ∀ (conn : TCPConnection) (cmd : Command) (args : ArgsDict) (peer : Peer),
      conn.socket = true →
      (sendCommand conn cmd args peer).socket = true ∧
      ∀ (cmd2 : Command) (args2 : ArgsDict) (peer2 : Peer),
        SocketOp.connect ∉
          (sendCommand { conn with socket := (sendCommand conn cmd args peer).socket }
            cmd2 args2 peer2).trace := by
  intro conn cmd args peer hs
  have h1 := sendCommand_socket_true conn cmd args peer hs
  refine ⟨h1, ?_⟩
  intro cmd2 args2 peer2
  exact sendCommand_no_connect _ _ _ _ (by simp [h1])

/-- Witness for C2 at the concrete timed-out run. -/
theorem c2_witness :
    (sendCommand exConn exCmd exArgs peerTO).socket = true ∧
    SocketOp.connect ∉
      (sendCommand { exConn with socket := (sendCommand exConn exCmd exArgs peerTO).socket }
        exCmd exArgs exPeer1).trace :=
  ⟨(c2_amended_socket_retained exConn exCmd exArgs peerTO rfl).1,
   (c2_amended_socket_retained exConn exCmd exArgs peerTO rfl).2 exCmd exArgs exPeer1⟩

/-- C3 counterexample: with the default configuration
(`receive_timeout = 3.0`), `__init__` stores `15.0` as the read
deadline — not the configured value. -/
theorem c3_counterexample :
    (TCPConnection.init cfgDefault).receive_timeout = 15 ∧
    cfgDefault.receive_timeout = 3 ∧
    (TCPConnection.init cfgDefault).receive_timeout ≠ cfgDefault.receive_timeout :=
  ⟨by norm_num [TCPConnection.init, cfgDefault], rfl,
   by norm_num [TCPConnection.init, cfgDefault]⟩

/-- C3 amended: the socket read deadline is five times the configured
`receive_timeout`, and whenever `send_command` applies a deadline via
`settimeout` it is exactly that stored (scaled) value — set inside
`send_command` before the receive loop, not upon connection. -/
theorem c3_amended_deadline_scaled :
    (∀ cfg : Config, (TCPConnection.init cfg).receive_timeout = cfg.receive_timeout * 5) ∧
    (∀ (conn : TCPConnection) (cmd : Command) (args : ArgsDict) (peer : Peer) (t : Rat),
        SocketOp.setRecvTimeout t ∈ (sendCommand conn cmd args peer).trace →
        t = conn.receive_timeout) ∧
    (∀ (conn : TCPConnection) (cmd : Command) (args : ArgsDict) (peer : Peer)
        (ob : Option (List Nat)),
        conn.socket = true → encodeStep cmd args = Except.ok ob →
        peer.sendResult = SendIO.ok →
        SocketOp.setRecvTimeout conn.receive_timeout ∈
          (sendCommand conn cmd args peer).trace) :=
  ⟨fun _ => rfl,
   fun conn cmd args peer t h => sendCommand_setTimeout_val conn cmd args peer t h,
   fun conn cmd args peer ob hs henc hsr =>
     sendCommand_setTimeout_mem conn cmd args peer ob hs henc hsr⟩

/-- Witness for C3 at the concrete `setFreq` run. -/
theorem c3_witness :
    (TCPConnection.init cfgDefault).receive_timeout = cfgDefault.receive_timeout * 5 ∧
    (15 : Rat) = exConn.receive_timeout ∧
    SocketOp.setRecvTimeout exConn.receive_timeout ∈
      (sendCommand exConn exCmd exArgs exPeer1).trace :=
  ⟨c3_amended_deadline_scaled.1 cfgDefault,
   c3_amended_deadline_scaled.2.1 exConn exCmd exArgs exPeer1 15 (by decide),
   c3_amended_deadline_scaled.2.2 exConn exCmd exArgs exPeer1
     (some [80, 87, 77, 32, 49, 48, 48, 48, 13, 10]) rfl rfl rfl⟩

/-- C6 counterexample: a first chunk that is not decodable as UTF-8
(the lone byte `0xFF`) does not produce the `Invalid response`
classification — the raised decode error is caught by the generic
handler and the outcome is the `TCP error` branch. -/
theorem c6_counterexample :
    utf8Decode [255] = none ∧
    (sendCommand exConn hexCmd [] peerBad).result = TcpResult.tcpError :=
  ⟨by decide, by decide⟩

/-- C6 amended: validation decodes the first chunk, trims whitespace,
and classifies Success exactly by substring containment of the marker
(Invalid otherwise, carrying the trimmed text); an undecodable first
chunk raises, which the generic exception handler converts to the
TCP-error outcome — a value, but not the Invalid classification. -/
theorem c6_amended_validation :
    (∀ (marker : List Char) (r : List Nat) (s : List Char), utf8Decode r = some s →
        (validateResp marker r = Except.ok (TcpResult.ok (py_strip s)) ↔
          marker <:+: py_strip s) ∧
        (¬ marker <:+: py_strip s →
          validateResp marker r = Except.ok (TcpResult.invalid (py_strip s)))) ∧
    (∀ (marker : List Char) (r : List Nat), utf8Decode r = none →
        validateResp marker r = Except.error PyExc.other) := by
  constructor
  · intro marker r s hdec
    have hval : validateResp marker r =
        (if pyIn marker (py_strip s) then Except.ok (TcpResult.ok (py_strip s))
         else Except.ok (TcpResult.invalid (py_strip s))) := by
      unfold validateResp
      rw [hdec]
    by_cases hin : pyIn marker (py_strip s) = true
    · rw [hval]
      simp only [hin, if_true]
      constructor
      · exact ⟨fun _ => (pyIn_iff _ _).mp hin, fun _ => trivial⟩
      · intro hni
        exact absurd ((pyIn_iff _ _).mp hin) hni
    · have hfalse : pyIn marker (py_strip s) = false := by
        cases hpy : pyIn marker (py_strip s)
        · rfl
        · exact absurd hpy hin
      have hni : ¬ marker <:+: py_strip s := fun hinf => hin ((pyIn_iff _ _).mpr hinf)
      rw [hval]
      simp only [hfalse, Bool.false_eq_true, if_false]
      constructor
      · constructor
        · intro heq
          simp at heq
        · intro hinf
          exact absurd hinf hni
      · intro _
        trivial
  · intro marker r hdec
    unfold validateResp
    rw [hdec]
/-- Witness for C6 at concrete frames. -/
theorem c6_witness :
    (validateResp ("OK".data) (utf8Encode "OK 1000\r\n".data) =
        Except.ok (TcpResult.ok (py_strip "OK 1000\r\n".data)) ↔
      ("OK".data : List Char) <:+: py_strip "OK 1000\r\n".data) ∧
    validateResp ("OK".data) [255] = Except.error PyExc.other :=
  ⟨(c6_amended_validation.1 ("OK".data) (utf8Encode "OK 1000\r\n".data)
      ("OK 1000\r\n".data) (by decide)).1,
   c6_amended_validation.2 ("OK".data) [255] (by decide)⟩

/-- C7: once connected and past the encode/send steps, a peer that
closes immediately without data yields the `NoResponse` outcome, while
an elapsed deadline yields `ReceiveTimeout`; the two outcomes (and
their rendered diagnostics) are distinct. -/
theorem c7_no_response_distinct :
    ∀ (conn : TCPConnection) (cmd : Command) (args : ArgsDict) (peer : Peer)
      (ob : Option (List Nat)) (rest : List RecvEvent),
      conn.socket = true → encodeStep cmd args = Except.ok ob →
      peer.sendResult = SendIO.ok →
      (peer.events = RecvEvent.data [] :: rest →
        (sendCommand conn cmd args peer).result = TcpResult.noResponse) ∧
      (peer.events = RecvEvent.timeout :: rest →
        (sendCommand conn cmd args peer).result = TcpResult.recvTimeout) ∧
      TcpResult.noResponse ≠ TcpResult.recvTimeout ∧
      renderResult TcpResult.noResponse ≠ renderResult TcpResult.recvTimeout := by
  intro conn cmd args peer ob rest hs henc hsr
  refine ⟨?_, ?_, by decide, by decide⟩
  · intro hev
    rw [sendCommand_result_recv conn cmd args peer ob hs henc hsr,
      recvPhase_close_empty conn cmd peer rest hev]
  · intro hev
    rw [sendCommand_result_recv conn cmd args peer ob hs henc hsr,
      recvPhase_timeout_ev conn cmd peer rest hev]

/-- Witness for C7 at the concrete peers. -/
theorem c7_witness :
    (sendCommand exConn exCmd exArgs peerClose).result = TcpResult.noResponse ∧
    (sendCommand exConn exCmd exArgs peerTO).result = TcpResult.recvTimeout :=
  ⟨(c7_no_response_distinct exConn exCmd exArgs peerClose
      (some [80, 87, 77, 32, 49, 48, 48, 48, 13, 10]) [] rfl rfl rfl).1 rfl,
   (c7_no_response_distinct exConn exCmd exArgs peerTO
      (some [80, 87, 77, 32, 49, 48, 48, 48, 13, 10]) [] rfl rfl rfl).2.1 rfl⟩

/-- C8: an id absent from the registry is answered with the
unknown-tool diagnostic, the connection state is untouched and the
socket trace is empty — no connect, send or receive occurs. -/
theorem c8_unknown_command :
    ∀ (cfg : Config) (conn : TCPConnection) (name : String) (args : Option ArgsDict)
      (peer : Peer),
      lookupCommand cfg name = none →
      handleCallTool cfg conn name args peer = ([unknownToolMsg name], conn.socket, []) := by
  intro cfg conn name args peer h
  unfold handleCallTool
  rw [h]

/-- Witness for C8 on the empty registry. -/
theorem c8_witness :
    handleCallTool {} (TCPConnection.init {}) "nope" none peerTO =
      ([unknownToolMsg "nope"], (TCPConnection.init {}).socket, []) :=
  c8_unknown_command {} (TCPConnection.init {}) "nope" none peerTO rfl

/-- C9: for every configuration, connection state, command name,
argument mapping (a missing/`None` mapping included) and peer
behaviour, `handle_call_tool` returns exactly one text content — all
error paths are values, none escapes as an exception — and a `None`
mapping behaves as the empty dict. -/
theorem c9_total_text :
    ∀ (cfg : Config) (conn : TCPConnection) (name : String) (args : Option ArgsDict)
      (peer : Peer),
      (∃ t, (handleCallTool cfg conn name args peer).1 = [t]) ∧
      handleCallTool cfg conn name none peer = handleCallTool cfg conn name (some []) peer := by
  intro cfg conn name args peer
  constructor
  · unfold handleCallTool
    cases lookupCommand cfg name <;> exact ⟨_, rfl⟩
  · rfl

/-- C10: for a command whose `data_type` is neither `ascii` nor `hex`,
`send_command` transmits nothing yet still sets the read deadline and
enters the receive loop, and that loop can only end by the peer
closing or by the deadline elapsing (never by a framing condition). -/
theorem c10_other_data_type :
    ∀ (conn : TCPConnection) (cmd : Command) (args : ArgsDict) (peer : Peer),
      conn.socket = true → cmd.data_type ≠ "ascii" → cmd.data_type ≠ "hex" →
      (∀ bs, SocketOp.send bs ∉ (sendCommand conn cmd args peer).trace) ∧
      SocketOp.setRecvTimeout conn.receive_timeout ∈ (sendCommand conn cmd args peer).trace ∧
      ((recvLoop cmd.data_type peer.events []).exit = RecvExit.closed ∨
        (recvLoop cmd.data_type peer.events []).exit = RecvExit.timedOut) := by
  intro conn cmd args peer hs h1 h2
  have henc := encodeStep_other cmd args h1 h2
  have htr := sendCommand_trace_recv_only conn cmd args peer hs henc
  refine ⟨?_, ?_, recvLoop_exit_not_frame cmd.data_type h1 h2 peer.events []⟩
  · intro bs hmem
    rw [htr, recvPhase_snd] at hmem
    rcases List.mem_cons.mp hmem with h | h
    · simp at h
    · have hrec := recvLoop_ops_recv cmd.data_type peer.events [] _ h
      simp at hrec
  · rw [htr, recvPhase_snd]
    exact List.mem_cons_self _ _

/-- Witness for C10 at a command with `data_type = "binary"`. -/
theorem c10_witness :
    SocketOp.send [255] ∉ (sendCommand exConn binCmd [] peerBin).trace ∧
    SocketOp.setRecvTimeout exConn.receive_timeout ∈
      (sendCommand exConn binCmd [] peerBin).trace ∧
    ((recvLoop binCmd.data_type peerBin.events []).exit = RecvExit.closed ∨
      (recvLoop binCmd.data_type peerBin.events []).exit = RecvExit.timedOut) :=
  ⟨(c10_other_data_type exConn binCmd [] peerBin rfl (by decide) (by decide)).1 [255],
   (c10_other_data_type exConn binCmd [] peerBin rfl (by decide) (by decide)).2.1,
   (c10_other_data_type exConn binCmd [] peerBin rfl (by decide) (by decide)).2.2⟩

end Mcp2tcp
